import Mathlib

/-!
Verification of the bulk result-downloader in `duckduckgo_search/cli.py`.

The development shallowly embeds the relevant Python functions:

* `sanitize_keywords`  — embeds `_sanitize_keywords` (cli.py lines 70-81);
* `unquote`, `jobFilename`, `destFilename` — embed the per-item filename
  computation (`unquote(url.split("/")[-1].split("?")[0])`, the `f"{i}_{...}"`
  prefix at cli.py lines 102-105, and the `filename[:200]` truncation at
  line 88);
* `tryBody`, `download_file` — embed `_download_file` (cli.py lines 84-91),
  with the network and the filesystem abstracted as oracles
  (`FetchResult`, `WriteResult`) describing what the single GET and the
  single open/write do;
* `submitJobs`, `download_results` — embed `_download_results`
  (cli.py lines 94-113) as a function from the result records and the
  per-job oracles to the batch's observable trace (`BatchTrace`);
* `PoolStep`, `Reachable` — a small-step model of the
  `ThreadPoolExecutor(max_workers=n)` scheduling discipline: a submitted
  job may start only while fewer than `n` jobs are running, and finishing
  a job moves it from the running set to the completed set.

Strings are modelled as `List Char` (Python `str.replace`, `str.split` and
slicing act on the character sequence), bytes as `List Nat`.
-/

/-! ## Python `str.replace` and `_sanitize_keywords` (cli.py 70-81) -/

/-- One fuel-indexed pass of Python `str.replace(pat, repl)`: scan left to
right, replace each non-overlapping occurrence of `pat` (assumed nonempty,
as in every call site of `_sanitize_keywords`) by `repl`.  The fuel only
makes the recursion structural; `replaceAll` supplies enough fuel
(`s.length`) that it is never exhausted. -/
def replaceAllFuel (pat repl : List Char) : Nat → List Char → List Char
  | _, [] => []
  | 0, s => s
  | fuel + 1, c :: rest =>
    if pat.isPrefixOf (c :: rest) then
      repl ++ replaceAllFuel pat repl fuel (rest.drop (pat.length - 1))
    else
      c :: replaceAllFuel pat repl fuel rest

/-- Python `s.replace(pat, repl)` for a nonempty pattern `pat`. -/
def replaceAll (pat repl s : List Char) : List Char :=
  replaceAllFuel pat repl s.length s

/-- The single-quote character, `'`. -/
def squote : Char := Char.ofNat 39

/-- Embeds `_sanitize_keywords` (cli.py 70-81): the chained
`str.replace` calls, in source order: remove `"filetype"`, remove `":"`,
turn `'"'` into `"'"`, remove `"site"`, turn `" "`, `"/"`, `"\\"` into
`"_"`, and a final (vacuous) removal of `" "`. -/
def sanitize_keywords (s : List Char) : List Char :=
  replaceAll [' '] []
    (replaceAll ['\\'] ['_']
      (replaceAll ['/'] ['_']
        (replaceAll [' '] ['_']
          (replaceAll "site".toList []
            (replaceAll ['"'] [squote]
              (replaceAll [':'] []
                (replaceAll "filetype".toList [] s)))))))

/-! ## Percent-decoding and the per-item filename (cli.py 102-105, 88) -/

/-- Value of a single hexadecimal digit, as used by `urllib.parse.unquote`. -/
def hexDigit (c : Char) : Option Nat :=
  if '0' ≤ c ∧ c ≤ '9' then some (c.toNat - '0'.toNat)
  else if 'a' ≤ c ∧ c ≤ 'f' then some (c.toNat - 'a'.toNat + 10)
  else if 'A' ≤ c ∧ c ≤ 'F' then some (c.toNat - 'A'.toNat + 10)
  else none

/-- Embeds `urllib.parse.unquote` restricted to single-byte (ASCII)
percent-escapes: each `%XY` with two hex digits becomes the character with
code `16*X + Y`; an ill-formed escape is left as written, exactly as
`unquote` leaves it. -/
def unquote : List Char → List Char
  | '%' :: a :: b :: rest =>
    match hexDigit a, hexDigit b with
    | some ha, some hb => Char.ofNat (16 * ha + hb) :: unquote rest
    | _, _ => '%' :: unquote (a :: b :: rest)
  | c :: rest => c :: unquote rest
  | [] => []

/-- Embeds the loop body `filename = unquote(url.split("/")[-1].split("?")[0])`
followed by `f"{i}_{filename}"` (cli.py 104-105): last `/`-segment of the
raw URL, then drop the `?`-query, then percent-decode, then prefix the
1-based ordinal.  `List.splitOn` agrees with Python `str.split` on a
single-character separator (empty segments kept, `[""] ` on the empty
string), `getLastD`/`headD` are `[-1]`/`[0]` (the split is never empty). -/
def jobFilename (i : Nat) (url : List Char) : List Char :=
  (Nat.repr i).toList ++ '_' :: unquote ((((url.splitOn '/').getLastD []).splitOn '?').headD [])

/-- The name under which `_download_file` opens the destination:
`jobFilename` truncated by the slice `filename[:200]` (cli.py 88). -/
def destFilename (i : Nat) (url : List Char) : List Char :=
  (jobFilename i url).take 200

/-- Modelled from the spec: the filename rule as §4.1 words it —
“percent-decode the URL, strip everything from the last `/` up to but not
including the terminal path segment, strip any `?`-prefixed query string
from that segment, prefix with `{ordinal}_`, and truncate the whole result
to 200 characters”; the decoding here happens before the URL is split. -/
def specFileName (i : Nat) (url : List Char) : List Char :=
  ((Nat.repr i).toList ++
    '_' :: ((((unquote url).splitOn '/').getLastD []).splitOn '?').headD []).take 200

/-- The amended filename rule: identical to the spec's except that the
terminal segment is taken, and the query stripped, on the raw URL and only
then percent-decoded. -/
def amendedFileName (i : Nat) (url : List Char) : List Char :=
  let seg := (url.splitOn '/').getLastD []
  let stem := (seg.splitOn '?').headD []
  ((Nat.repr i).toList ++ '_' :: unquote stem).take 200

/-! ## The Resource Fetcher `_download_file` (cli.py 84-91)

The one GET request and the one `open`/`write` are abstracted as oracles
saying what the environment did: `FetchResult` is what
`primp.Client(...).get(url)` produced (a response with a status code and a
body, or a raised network/protocol exception), and `WriteResult` is what
`open(...)` / `file.write(...)` did (success; `open` raised; or `write`
raised after the OS accepted the first `k` bytes — `open(path, "wb")`
creates/truncates the file before any byte is written). -/

/-- Outcome of the single `primp` GET. -/
inductive FetchResult where
  | response (status : Nat) (body : List Nat)
  | netError (msg : List Char)
deriving DecidableEq

/-- Outcome of the single `open`/`write` at the destination. -/
inductive WriteResult where
  | ok
  | openError (msg : List Char)
  | writeError (written : Nat) (msg : List Char)
deriving DecidableEq

/-- Severity of a `logging` call; `_download_file` only ever logs at
`logger.debug`. -/
inductive LogLevel where
  | debug
  | info
  | warning
  | error
deriving DecidableEq

/-- A file materialised on disk: its path and its byte content. -/
structure FileEffect where
  path : List Char
  content : List Nat
deriving DecidableEq

/-- `os.path.join(dir_path, name)` for a relative `name`. -/
def joinPath (dir name : List Char) : List Char :=
  dir ++ '/' :: name

/-- The observable outcome of one `_download_file` call: the file it left
at the destination (if any), the log records it emitted, and what its
caller sees (`Except.ok` = returned normally, `Except.error` = an
exception escaped). -/
structure FetchEffect where
  file : Option FileEffect
  logs : List LogLevel
  result : Except (List Char) Unit

/-- The `try`-block of `_download_file` (cli.py 86-89): issue the GET; on
status 200 open the destination (creating/truncating it) and write the
body.  The pair returned is the file state left at `path` together with
the exception, if one was raised inside the block. -/
def tryBody (fetch : FetchResult) (write : WriteResult) (path : List Char) :
    Option FileEffect × Except (List Char) Unit :=
  match fetch with
  | FetchResult.netError e => (none, Except.error e)
  | FetchResult.response status body =>
    if status = 200 then
      match write with
      | WriteResult.openError e => (none, Except.error e)
      | WriteResult.writeError k e => (some ⟨path, body.take k⟩, Except.error e)
      | WriteResult.ok => (some ⟨path, body⟩, Except.ok ())
    else (none, Except.ok ())

/-- Embeds `_download_file` (cli.py 84-91): run the `try`-block against
`os.path.join(dir_path, filename[:200])`; `except Exception`
catches whatever it raised, logs one record at `logger.debug`, and
returns normally.  Nothing is logged on the no-exception paths (including
a non-200 status). -/
def download_file (dir filename : List Char) (fetch : FetchResult) (write : WriteResult) :
    FetchEffect :=
  match tryBody fetch write (joinPath dir (filename.take 200)) with
  | (f, Except.ok _) => ⟨f, [], Except.ok ()⟩
  | (f, Except.error _) => ⟨f, [LogLevel.debug], Except.ok ()⟩

/-! ## The Batch Dispatcher `_download_results` (cli.py 94-113) -/

/-- A result record, as far as the downloader reads it: a string-keyed
mapping (Python dict) accessed only through `res["image"]` /
`res["href"]`. -/
abbrev RecordT : Type := List (List Char × List Char)

/-- The key the URL is read from: `res["image"] if images else res["href"]`
(cli.py 103). -/
def urlKey (images : Bool) : List Char :=
  if images then "image".toList else "href".toList

/-- One submitted fetch job: the record's 1-based ordinal, its URL, and
the `f"{i}_{filename}"` passed to `_download_file`. -/
structure Job where
  ordinal : Nat
  url : List Char
  filename : List Char
deriving DecidableEq

/-- The submission loop `for i, res in enumerate(results, start=1)`
(cli.py 102-106): read the URL out of each record in order and submit one
job per record.  A record without the key makes `res[...]` raise
`KeyError` (`Bool` result `true`): the loop stops there and no later
record is submitted. -/
def submitJobs (images : Bool) : Nat → List RecordT → List Job × Bool
  | _, [] => ([], false)
  | i, r :: rs =>
    match List.lookup (urlKey images) r with
    | none => ([], true)
    | some url =>
      (⟨i, url, jobFilename i url⟩ :: (submitJobs images (i + 1) rs).1,
        (submitJobs images (i + 1) rs).2)

/-- The `for future in as_completed(futures)` loop (cli.py 111-113) over
the job results in completion order: `future.result()` re-raises a job's
escaped exception, aborting the loop; otherwise `bar.update(1)` ticks
once per completed job.  Returns the tick count and whether the loop was
aborted by a re-raised exception. -/
def tickLoop : List (Except (List Char) Unit) → Nat × Bool
  | [] => (0, false)
  | Except.ok _ :: rest => ((tickLoop rest).1 + 1, (tickLoop rest).2)
  | Except.error _ :: _ => (0, true)

/-- `threads = 10 if threads is None else threads` (cli.py 99). -/
def effectiveThreads : Option Nat → Nat
  | none => 10
  | some n => n

/-- The destination directory `f"{path_type}_{keywords}_{timestamp}"`
(cli.py 95-96); the timestamp string is a parameter. -/
def dirName (images : Bool) (keywords ts : List Char) : List Char :=
  (if images then "images".toList else "text".toList) ++ '_' :: keywords ++ '_' :: ts

/-- Observable trace of one `_download_results` call. -/
structure BatchTrace where
  /-- `os.makedirs(path, exist_ok=True)` ran (it runs unconditionally,
  before any job is submitted). -/
  dirCreated : Bool
  /-- `max_workers` handed to `ThreadPoolExecutor`. -/
  poolSize : Nat
  /-- the jobs submitted to the pool, in submission order. -/
  submitted : List Job
  /-- ordinals of the records on which a fetch was attempted — every
  submitted future runs exactly once (`shutdown(wait=True)` on exit from
  the `with` block waits for them even when the submit loop raised). -/
  attempts : List Nat
  /-- the files materialised on disk, one per job that wrote. -/
  files : List FileEffect
  /-- `some n` iff `click.progressbar(length=n, ...)` was entered;
  `none` iff control never reached it. -/
  progressBarLength : Option Nat
  /-- number of `bar.update(1)` calls. -/
  ticks : Nat
  /-- a `KeyError` escaped from the submit loop. -/
  keyError : Bool
  /-- some exception propagated to the caller. -/
  raised : Bool

/-- Embeds `_download_results` (cli.py 94-113) given per-ordinal oracles
for what the network and the filesystem do for each job.  Completion
order is abstracted: the tick count and the set of files do not depend on
it. -/
def download_results (images : Bool) (keywords ts : List Char) (results : List RecordT)
    (threadsOpt : Option Nat) (fetchOf : Nat → FetchResult) (writeOf : Nat → WriteResult) :
    BatchTrace :=
  let dir := dirName images keywords ts
  let pair := submitJobs images 1 results
  let runs := pair.1.map fun j => download_file dir j.filename (fetchOf j.ordinal) (writeOf j.ordinal)
  let ticksPair :=
    if pair.2 then (0, false) else tickLoop (runs.map fun r => r.result)
  { dirCreated := true
    poolSize := effectiveThreads threadsOpt
    submitted := pair.1
    attempts := pair.1.map Job.ordinal
    files := runs.filterMap FetchEffect.file
    progressBarLength := if pair.2 then none else some pair.1.length
    ticks := ticksPair.1
    keyError := pair.2
    raised := pair.2 || ticksPair.2 }

/-! ## The `ThreadPoolExecutor` scheduling discipline (cli.py 100)

A small-step model of a fixed-size pool: jobs (identified by their
ordinals) wait in submission order, at most `maxW` of them run at once,
and a running job may finish at any time in any order.  `_download_results`
returns when the state is terminal (nothing pending, nothing running). -/

/-- Scheduler state: jobs not yet started (in submission order), jobs
currently executing `_download_file`, and finished jobs (most recent
first). -/
structure PoolState where
  pending : List Nat
  running : List Nat
  done : List Nat
deriving DecidableEq

/-- One scheduler step of `ThreadPoolExecutor(max_workers=maxW)`: the next
pending job may start only while fewer than `maxW` jobs are running;
any running job may finish (completion order is unconstrained). -/
inductive PoolStep (maxW : Nat) : PoolState → PoolState → Prop where
  | start (j : Nat) (rest running done : List Nat) (h : running.length < maxW) :
      PoolStep maxW ⟨j :: rest, running, done⟩ ⟨rest, j :: running, done⟩
  | finish (pending runA : List Nat) (j : Nat) (runB done : List Nat) :
      PoolStep maxW ⟨pending, runA ++ j :: runB, done⟩ ⟨pending, runA ++ runB, j :: done⟩

/-- Reflexive-transitive closure of `PoolStep`. -/
inductive Reachable (maxW : Nat) (init : PoolState) : PoolState → Prop where
  | refl : Reachable maxW init init
  | step {s s' : PoolState} :
      Reachable maxW init s → PoolStep maxW s s' → Reachable maxW init s'

/-- The pool as `_download_results` starts it: every submitted job
pending, nothing running, nothing done. -/
def initState (jobs : List Nat) : PoolState :=
  ⟨jobs, [], []⟩

/-! ## Concrete fixtures used by the witnesses -/

/-- A text-search record holding only its `href`. -/
def recA : RecordT := [("href".toList, "https://x.test/a".toList)]

/-- A second text-search record. -/
def recB : RecordT := [("href".toList, "https://x.test/b".toList)]

/-- A record with no URL-bearing key at all. -/
def recBad : RecordT := [("title".toList, "t".toList)]

/-- An oracle under which every fetch raises a network error. -/
def failAll : Nat → FetchResult := fun _ => FetchResult.netError "boom".toList

/-- An oracle under which job 1 fails and every other job succeeds. -/
def fetchMixed : Nat → FetchResult := fun n =>
  if n = 1 then FetchResult.netError "boom".toList else FetchResult.response 200 [7]

/-- An oracle under which every write succeeds. -/
def okAll : Nat → WriteResult := fun _ => WriteResult.ok

/-- A terminal pool state for a two-job batch: job 1 finished before
job 2. -/
def sDone : PoolState := ⟨[], [], [2, 1]⟩

/-- A mid-run pool state for a two-job batch: job 1 running, job 2
pending. -/
def sMid : PoolState := ⟨[2], [1], []⟩

/-! ## Facts about `str.replace` and `_sanitize_keywords` -/

/-- Every character of the output of `replaceAllFuel` comes from the input
string or from the replacement string. -/
theorem mem_of_mem_replaceAllFuel {pat repl : List Char} {c : Char} :
    ∀ {fuel : Nat} {s : List Char}, c ∈ replaceAllFuel pat repl fuel s → c ∈ s ∨ c ∈ repl := by
  intro fuel
  induction fuel with
  | zero =>
    intro s h
    cases s with
    | nil => simp [replaceAllFuel] at h
    | cons a rest => exact Or.inl (by simpa [replaceAllFuel] using h)
  | succ n ih =>
    intro s h
    cases s with
    | nil => simp [replaceAllFuel] at h
    | cons a rest =>
      simp only [replaceAllFuel] at h
      split at h
      · rcases List.mem_append.mp h with hrep | hrec
        · exact Or.inr hrep
        · rcases ih hrec with hs | hrep
          · exact Or.inl (List.mem_cons_of_mem a (List.drop_subset _ rest hs))
          · exact Or.inr hrep
      · rcases List.mem_cons.mp h with rfl | hrec
        · exact Or.inl (List.mem_cons_self _ _)
        · rcases ih hrec with hs | hrep
          · exact Or.inl (List.mem_cons_of_mem a hs)
          · exact Or.inr hrep

/-- If a character occurs neither in the input nor in the replacement, it
does not occur in the output of `replaceAll`. -/
theorem not_mem_replaceAll {pat repl s : List Char} {c : Char}
    (hs : c ∉ s) (hr : c ∉ repl) : c ∉ replaceAll pat repl s := by
  intro h
  rcases mem_of_mem_replaceAllFuel h with h' | h'
  · exact hs h'
  · exact hr h'

/-- Replacing the single-character pattern `[a]` by a replacement not
containing `a` removes every occurrence of `a` (given enough fuel). -/
theorem not_mem_replaceAllFuel_single {a : Char} {repl : List Char} (hr : a ∉ repl) :
    ∀ {fuel : Nat} {s : List Char}, s.length ≤ fuel →
      a ∉ replaceAllFuel [a] repl fuel s := by
  intro fuel
  induction fuel with
  | zero =>
    intro s hlen
    have : s = [] := List.length_eq_zero.mp (Nat.le_zero.mp hlen)
    subst this
    simp [replaceAllFuel]
  | succ n ih =>
    intro s hlen
    cases s with
    | nil => simp [replaceAllFuel]
    | cons c rest =>
      simp only [replaceAllFuel]
      by_cases hac : a = c
      · subst hac
        have hpre : List.isPrefixOf [a] (a :: rest) = true := by
          simp [List.isPrefixOf]
        rw [if_pos hpre]
        intro hmem
        rcases List.mem_append.mp hmem with h | h
        · exact hr h
        · have hlen' : rest.length ≤ n := by simpa using hlen
          exact ih hlen' (by simpa using h)
      · have hpre : List.isPrefixOf [a] (c :: rest) = false := by
          simp [List.isPrefixOf]
          intro h
          exact absurd h hac
        rw [if_neg (by simp [hpre])]
        intro hmem
        rcases List.mem_cons.mp hmem with h | h
        · exact hac h
        · have hlen' : rest.length ≤ n := by simpa using hlen
          exact ih hlen' h

/-- `replaceAll` with a single-character pattern `[a]` and a replacement
avoiding `a` produces a string without `a`. -/
theorem not_mem_replaceAll_single {a : Char} {repl : List Char} (hr : a ∉ repl)
    (s : List Char) : a ∉ replaceAll [a] repl s :=
  not_mem_replaceAllFuel_single hr (Nat.le_refl _)

/-! ## Facts about `_download_file` and the batch machinery -/

/-- `_download_file` returns normally whatever the network and the
filesystem did: its `except Exception` clause catches everything the
`try`-block can raise. -/
theorem download_file_result_ok (dir filename : List Char) (fetch : FetchResult)
    (write : WriteResult) :
    (download_file dir filename fetch write).result = Except.ok () := by
  rcases h : tryBody fetch write (joinPath dir (filename.take 200)) with ⟨f, r⟩
  cases r <;> simp [download_file, h]

/-- Every element of a batch's result list is `Except.ok`. -/
theorem run_results_all_ok (dir : List Char) (jobs : List Job)
    (fetchOf : Nat → FetchResult) (writeOf : Nat → WriteResult) :
    ∀ e ∈ ((jobs.map fun j =>
        download_file dir j.filename (fetchOf j.ordinal) (writeOf j.ordinal)).map
          fun r => r.result),
      e = Except.ok () := by
  intro e he
  simp only [List.map_map, List.mem_map, Function.comp] at he
  obtain ⟨j, -, rfl⟩ := he
  exact download_file_result_ok _ _ _ _

/-- When no completion re-raises, the `as_completed` loop ticks once per
future and is not aborted. -/
theorem tickLoop_all_ok {l : List (Except (List Char) Unit)}
    (h : ∀ e ∈ l, e = Except.ok ()) : tickLoop l = (l.length, false) := by
  induction l with
  | nil => rfl
  | cons x rest ih =>
    have hx := h x (List.mem_cons_self _ _)
    subst hx
    have hr := ih fun e he => h e (List.mem_cons_of_mem _ he)
    simp [tickLoop, hr]

/-- When every record carries the URL key, the submit loop raises no
`KeyError` and submits one job per record, carrying the ordinals
`i, i+1, …` in order. -/
theorem submitJobs_of_keys (images : Bool) :
    ∀ (rs : List RecordT) (i : Nat),
      (∀ r ∈ rs, (List.lookup (urlKey images) r).isSome = true) →
      (submitJobs images i rs).2 = false ∧
        (submitJobs images i rs).1.map Job.ordinal = List.range' i rs.length := by
  intro rs
  induction rs with
  | nil => intro i _; simp [submitJobs]
  | cons r rest ih =>
    intro i h
    rcases Option.isSome_iff_exists.mp (h r (List.mem_cons_self _ _)) with ⟨url, hurl⟩
    have hrest := ih (i + 1) fun x hx => h x (List.mem_cons_of_mem _ hx)
    refine ⟨?_, ?_⟩
    · simp [submitJobs, hurl, hrest.1]
    · simp [submitJobs, hurl, hrest.2, List.range'_succ]

/-- When the first record without the URL key sits after `pre`, the submit
loop raises `KeyError` having submitted exactly the records of `pre`. -/
theorem submitJobs_stops_at_missing (images : Bool) (bad : RecordT) (post : List RecordT)
    (hbad : List.lookup (urlKey images) bad = none) :
    ∀ (pre : List RecordT) (i : Nat),
      (∀ r ∈ pre, (List.lookup (urlKey images) r).isSome = true) →
      (submitJobs images i (pre ++ bad :: post)).2 = true ∧
        (submitJobs images i (pre ++ bad :: post)).1.map Job.ordinal
          = List.range' i pre.length := by
  intro pre
  induction pre with
  | nil => intro i _; simp [submitJobs, hbad]
  | cons r rest ih =>
    intro i h
    rcases Option.isSome_iff_exists.mp (h r (List.mem_cons_self _ _)) with ⟨url, hurl⟩
    have hrest := ih (i + 1) fun x hx => h x (List.mem_cons_of_mem _ hx)
    refine ⟨?_, ?_⟩
    · simpa [submitJobs, hurl] using hrest.1
    · simp [submitJobs, hurl, hrest.2, List.range'_succ]

/-! ## Facts about the pool model -/

/-- Invariant of the pool: starting from a state within the worker bound,
every reachable state is within the worker bound. -/
theorem pool_running_bounded {maxW : Nat} {init s : PoolState}
    (hinit : init.running.length ≤ maxW) (h : Reachable maxW init s) :
    s.running.length ≤ maxW := by
  induction h with
  | refl => exact hinit
  | step _ hstep ih =>
    cases hstep with
    | start j rest running done hlt =>
      simp only [List.length_cons]
      omega
    | finish pending runA j runB done =>
      simp only [List.length_append, List.length_cons] at ih ⊢
      omega

/-- Invariant of the pool: the pending, running and completed jobs are
together a permutation of the submitted jobs — nothing is lost and
nothing is run twice. -/
theorem pool_perm {maxW : Nat} {jobs : List Nat} {s : PoolState}
    (h : Reachable maxW (initState jobs) s) :
    (s.pending ++ s.running ++ s.done).Perm jobs := by
  induction h with
  | refl => simp [initState]
  | step _ hstep ih =>
    cases hstep with
    | start j rest running done hlt =>
      refine List.Perm.trans ?_ ih
      simp only [List.cons_append, List.append_assoc]
      exact List.perm_middle
    | finish pending runA j runB done =>
      refine List.Perm.trans ?_ ih
      simp only [List.cons_append, List.append_assoc]
      exact List.Perm.append_left _ (List.Perm.append_left _ List.perm_middle)

/-! ## The claims -/

/-- C1: over any non-empty record list whose records all carry the URL
key, `_download_results` submits and attempts each of the `L` records
exactly once (one fetch per record, ordinals `1..L`), propagates no
exception — a failed fetch neither aborts the batch nor causes an early
return — and, whatever the pool size, any terminal scheduler state
(nothing pending, nothing running) the pool can reach holds exactly those
`L` jobs completed, so the call returns only after all `L` attempts. -/
theorem c1_every_record_attempted_once (images : Bool) (keywords ts : List Char)
    (results : List RecordT) (threadsOpt : Option Nat)
    (fetchOf : Nat → FetchResult) (writeOf : Nat → WriteResult) (s : PoolState)
    (hne : results ≠ [])
    (hkeys : ∀ r ∈ results, (List.lookup (urlKey images) r).isSome = true)
    (hrun : Reachable
      (download_results images keywords ts results threadsOpt fetchOf writeOf).poolSize
      (initState (download_results images keywords ts results threadsOpt fetchOf writeOf).attempts)
      s)
    (hpending : s.pending = []) (hrunning : s.running = []) :
    (download_results images keywords ts results threadsOpt fetchOf writeOf).attempts
      = List.range' 1 results.length ∧
    (download_results images keywords ts results threadsOpt fetchOf writeOf).raised = false ∧
    s.done.Perm (List.range' 1 results.length) := by
  have hsub := submitJobs_of_keys images results 1 hkeys
  have hatt : (download_results images keywords ts results threadsOpt fetchOf writeOf).attempts
      = List.range' 1 results.length := by
    simpa [download_results] using hsub.2
  refine ⟨hatt, ?_, ?_⟩
  · have hall := run_results_all_ok (dirName images keywords ts) (submitJobs images 1 results).1
      fetchOf writeOf
    simp only [List.map_map] at hall
    simp [download_results, hsub.1, tickLoop_all_ok hall]
  · have hperm := pool_perm hrun
    rw [hatt, hpending, hrunning] at hperm
    simpa using hperm

/-- Witness for C1: a two-record batch run on a pool of size 1 whose
first fetch fails; a full pool run finishing job 1 before job 2 ends with
both jobs done. -/
theorem c1_witness :
    (download_results false "k".toList "t".toList [recA, recB] (some 1) fetchMixed okAll).attempts
      = List.range' 1 2 ∧
    (download_results false "k".toList "t".toList [recA, recB] (some 1) fetchMixed okAll).raised
      = false ∧
    sDone.done.Perm (List.range' 1 2) :=
  c1_every_record_attempted_once false "k".toList "t".toList [recA, recB] (some 1) fetchMixed
    okAll sDone (by decide) (by decide)
    (Reachable.step
      (Reachable.step
        (Reachable.step
          (Reachable.step Reachable.refl (PoolStep.start 1 [2] [] [] (by decide)))
          (PoolStep.finish [2] [] 1 [] []))
        (PoolStep.start 2 [] [] [1] (by decide)))
      (PoolStep.finish [] [] 2 [] [1]))
    rfl rfl

/-- C2: in every scheduler state the pool can reach during a
`_download_results` run, at most `poolSize` (the `threads` parameter,
defaulting to 10) invocations of `_download_file` are running at once. -/
theorem c2_in_flight_bounded (images : Bool) (keywords ts : List Char)
    (results : List RecordT) (threadsOpt : Option Nat)
    (fetchOf : Nat → FetchResult) (writeOf : Nat → WriteResult) (s : PoolState)
    (hrun : Reachable
      (download_results images keywords ts results threadsOpt fetchOf writeOf).poolSize
      (initState (download_results images keywords ts results threadsOpt fetchOf writeOf).attempts)
      s) :
    s.running.length
      ≤ (download_results images keywords ts results threadsOpt fetchOf writeOf).poolSize :=
  pool_running_bounded (by simp [initState]) hrun

/-- Witness for C2: after starting the first of two jobs on the default
pool (10 workers), one job is in flight, within the bound. -/
theorem c2_witness :
    sMid.running.length
      ≤ (download_results false "k".toList "t".toList [recA, recB] none failAll okAll).poolSize :=
  c2_in_flight_bounded false "k".toList "t".toList [recA, recB] none failAll okAll sMid
    (Reachable.step Reachable.refl (PoolStep.start 1 [2] [] [] (by decide)))

/-- C3 counterexample: on an HTTP 404 response `_download_file` returns
normally but logs nothing at all — the claim that any non-200 status is
"logged at debug severity" is false, since the `logger.debug` call sits
only in the `except` clause and a non-200 response raises nothing. -/
theorem c3_counterexample :
    (download_file "d".toList "f".toList (FetchResult.response 404 [1]) WriteResult.ok).logs
      = [] ∧
    (download_file "d".toList "f".toList (FetchResult.response 404 [1]) WriteResult.ok).result
      = Except.ok () :=
  ⟨rfl, rfl⟩

/-- C3 amended: `_download_file` always returns normally, never
propagating an exception; it logs exactly one debug record when (and only
when) the `try`-block raised — a network/protocol error or a filesystem
error while opening/writing — and logs nothing otherwise; in particular a
non-200 status is swallowed silently, with no log and no file. -/
theorem c3_amended (dir filename : List Char) (fetch : FetchResult) (write : WriteResult) :
    (download_file dir filename fetch write).result = Except.ok () ∧
    (download_file dir filename fetch write).logs =
      (match (tryBody fetch write (joinPath dir (filename.take 200))).2 with
        | Except.ok _ => ([] : List LogLevel)
        | Except.error _ => [LogLevel.debug]) := by
  rcases h : tryBody fetch write (joinPath dir (filename.take 200)) with ⟨f, r⟩
  cases r <;> simp [download_file, h]

/-- C4 counterexample: a 200 response with a three-byte body whose write
raises after one byte leaves a one-byte partial file at the destination —
refuting "on any fetch/write error no partial or placeholder file is
written" (`open(..., "wb")` creates/truncates the file before `write`
runs). -/
theorem c4_counterexample :
    (download_file "d".toList "f".toList (FetchResult.response 200 [1, 2, 3])
        (WriteResult.writeError 1 "disk full".toList)).file ≠ none ∧
    (download_file "d".toList "f".toList (FetchResult.response 200 [1, 2, 3])
        (WriteResult.writeError 1 "disk full".toList)).file
      = some ⟨"d/f".toList, [1]⟩ :=
  ⟨by decide, rfl⟩

/-- C4 amended: the filesystem effect of `_download_file` is exactly: on a
200 response with a successful write, one file holding the full body; on
a 200 response whose write raises after `k` bytes, one file holding the
first `k` bytes (the open already created/truncated it); in every other
case — non-200 status, network/protocol error, failed open — no file at
all.  Any file it leaves sits at the single destination path
`os.path.join(dir_path, filename[:200])`. -/
theorem c4_amended (dir filename : List Char) (fetch : FetchResult) (write : WriteResult) :
    (download_file dir filename fetch write).file =
      (match fetch with
        | FetchResult.netError _ => none
        | FetchResult.response status body =>
          if status = 200 then
            match write with
            | WriteResult.ok => some ⟨joinPath dir (filename.take 200), body⟩
            | WriteResult.writeError k _ => some ⟨joinPath dir (filename.take 200), body.take k⟩
            | WriteResult.openError _ => none
          else none) := by
  cases fetch with
  | netError e => rfl
  | response status body =>
    by_cases hs : status = 200
    · subst hs
      cases write <;> rfl
    · simp [download_file, tryBody, hs]

/-- C5: over records that all carry the URL key, the progress bar ticks
exactly once per record — `L` ticks for `L` records — whichever and
however many of the fetches fail. -/
theorem c5_ticks_eq_length (images : Bool) (keywords ts : List Char) (results : List RecordT)
    (threadsOpt : Option Nat) (fetchOf : Nat → FetchResult) (writeOf : Nat → WriteResult)
    (hkeys : ∀ r ∈ results, (List.lookup (urlKey images) r).isSome = true) :
    (download_results images keywords ts results threadsOpt fetchOf writeOf).ticks
      = results.length := by
  have hsub := submitJobs_of_keys images results 1 hkeys
  have hlen : (submitJobs images 1 results).1.length = results.length := by
    simpa using congrArg List.length hsub.2
  have hall := run_results_all_ok (dirName images keywords ts) (submitJobs images 1 results).1
    fetchOf writeOf
  simp only [List.map_map] at hall
  simp [download_results, hsub.1, tickLoop_all_ok hall, hlen]

/-- Witness for C5: a two-record batch in which every fetch fails still
ticks twice. -/
theorem c5_witness :
    (download_results false "k".toList "t".toList [recA, recB] none failAll okAll).ticks = 2 :=
  c5_ticks_eq_length false "k".toList "t".toList [recA, recB] none failAll okAll (by decide)

/-- C6 counterexample: with an empty result list `_download_results`
still executes `with click.progressbar(length=0, ...)` — a progress
display is created, refuting "does not create a progress display". -/
theorem c6_counterexample :
    (download_results false "k".toList "t".toList [] none failAll okAll).progressBarLength
      = some 0 :=
  rfl

/-- C6 amended: on an empty result list `_download_results` attempts no
fetch, emits no progress tick, writes no file and raises nothing — but it
still creates the destination directory and still creates a (length-0)
progress display before returning. -/
theorem c6_amended (images : Bool) (keywords ts : List Char) (threadsOpt : Option Nat)
    (fetchOf : Nat → FetchResult) (writeOf : Nat → WriteResult) :
    (download_results images keywords ts [] threadsOpt fetchOf writeOf).attempts = [] ∧
    (download_results images keywords ts [] threadsOpt fetchOf writeOf).ticks = 0 ∧
    (download_results images keywords ts [] threadsOpt fetchOf writeOf).files = [] ∧
    (download_results images keywords ts [] threadsOpt fetchOf writeOf).raised = false ∧
    (download_results images keywords ts [] threadsOpt fetchOf writeOf).progressBarLength
      = some 0 ∧
    (download_results images keywords ts [] threadsOpt fetchOf writeOf).dirCreated = true :=
  ⟨rfl, rfl, rfl, rfl, rfl, rfl⟩

/-- C7 counterexample: for a URL with a percent-encoded slash the code's
filename (decode after splitting) differs from the spec's pipeline
(decode before splitting): the code yields `"1_a/b.jpg"`, the spec's
order yields `"1_b.jpg"`. -/
theorem c7_counterexample :
    destFilename 1 "https://x.test/a%2Fb.jpg".toList = "1_a/b.jpg".toList ∧
    specFileName 1 "https://x.test/a%2Fb.jpg".toList = "1_b.jpg".toList ∧
    destFilename 1 "https://x.test/a%2Fb.jpg".toList
      ≠ specFileName 1 "https://x.test/a%2Fb.jpg".toList :=
  ⟨by decide, by decide, by decide⟩

/-- C7 amended: the per-item filename takes the terminal `/`-segment of
the raw URL, strips the `?`-prefixed query, percent-decodes that segment
only then, prefixes `{ordinal}_`, and truncates the whole result to 200
characters; in particular `file_name(1, "https://x.test/a%20b.jpg?x=1")`
is `"1_a b.jpg"`. -/
theorem c7_amended (i : Nat) (url : List Char) :
    destFilename i url = amendedFileName i url ∧
    (destFilename i url).length ≤ 200 ∧
    destFilename 1 "https://x.test/a%20b.jpg?x=1".toList = "1_a b.jpg".toList := by
  refine ⟨rfl, ?_, by decide⟩
  simp only [destFilename, List.length_take]
  omega

/-- C8: `_sanitize_keywords` removes the `"filetype"` marker and all
colons, removes the `"site"` marker, turns double quotes into single
quotes, and turns spaces and both path separators into underscores; on
`'filetype:pdf "report" site:example.com'` it yields
`'pdf_'report'_example.com'`. -/
theorem c8_sanitize_example :
    sanitize_keywords "filetype:pdf \"report\" site:example.com".toList
      = "pdf_".toList ++ squote :: "report".toList ++ squote :: "_example.com".toList := by
  decide

/-- C9: for every input string, the output of `_sanitize_keywords`
contains no space, no forward slash, no backslash, no double quote and no
colon. -/
theorem c9_no_forbidden_chars (s : List Char) {c : Char}
    (hc : c ∈ sanitize_keywords s) :
    c ≠ ' ' ∧ c ≠ '/' ∧ c ≠ '\\' ∧ c ≠ '"' ∧ c ≠ ':' := by
  have hspace : (' ' : Char) ∉ sanitize_keywords s := by
    unfold sanitize_keywords
    exact not_mem_replaceAll_single (by decide) _
  have hslash : ('/' : Char) ∉ sanitize_keywords s := by
    unfold sanitize_keywords
    apply not_mem_replaceAll ?_ (by decide)
    apply not_mem_replaceAll ?_ (by decide)
    exact not_mem_replaceAll_single (by decide) _
  have hbslash : ('\\' : Char) ∉ sanitize_keywords s := by
    unfold sanitize_keywords
    apply not_mem_replaceAll ?_ (by decide)
    exact not_mem_replaceAll_single (by decide) _
  have hquote : ('"' : Char) ∉ sanitize_keywords s := by
    unfold sanitize_keywords
    apply not_mem_replaceAll ?_ (by decide)
    apply not_mem_replaceAll ?_ (by decide)
    apply not_mem_replaceAll ?_ (by decide)
    apply not_mem_replaceAll ?_ (by decide)
    apply not_mem_replaceAll ?_ (by decide)
    exact not_mem_replaceAll_single (by decide) _
  have hcolon : (':' : Char) ∉ sanitize_keywords s := by
    unfold sanitize_keywords
    apply not_mem_replaceAll ?_ (by decide)
    apply not_mem_replaceAll ?_ (by decide)
    apply not_mem_replaceAll ?_ (by decide)
    apply not_mem_replaceAll ?_ (by decide)
    apply not_mem_replaceAll ?_ (by decide)
    apply not_mem_replaceAll ?_ (by decide)
    exact not_mem_replaceAll_single (by decide) _
  exact ⟨fun h => hspace (h ▸ hc), fun h => hslash (h ▸ hc), fun h => hbslash (h ▸ hc),
    fun h => hquote (h ▸ hc), fun h => hcolon (h ▸ hc)⟩

/-- Witness for C9 at the input `"a b"`. -/
theorem c9_witness :
    ('a' : Char) ≠ ' ' ∧ ('a' : Char) ≠ '/' ∧ ('a' : Char) ≠ '\\' ∧ ('a' : Char) ≠ '"' ∧
      ('a' : Char) ≠ ':' :=
  c9_no_forbidden_chars "a b".toList (by decide)

/-- C10: when some record lacks the URL key (`"image"` in image mode,
`"href"` otherwise), `_download_results` lets the `KeyError` escape to
its caller; the destination directory was already created, exactly the
records before the offending one were submitted (none after it), and the
progress bar never ticks. -/
theorem c10_keyerror_propagates (images : Bool) (keywords ts : List Char)
    (pre post : List RecordT) (bad : RecordT) (threadsOpt : Option Nat)
    (fetchOf : Nat → FetchResult) (writeOf : Nat → WriteResult)
    (hpre : ∀ r ∈ pre, (List.lookup (urlKey images) r).isSome = true)
    (hbad : List.lookup (urlKey images) bad = none) :
    (download_results images keywords ts (pre ++ bad :: post) threadsOpt fetchOf writeOf).keyError
      = true ∧
    (download_results images keywords ts (pre ++ bad :: post) threadsOpt fetchOf writeOf).raised
      = true ∧
    (download_results images keywords ts (pre ++ bad :: post) threadsOpt fetchOf writeOf).dirCreated
      = true ∧
    (download_results images keywords ts (pre ++ bad :: post) threadsOpt fetchOf
        writeOf).submitted.map Job.ordinal
      = List.range' 1 pre.length ∧
    (download_results images keywords ts (pre ++ bad :: post) threadsOpt fetchOf writeOf).ticks
      = 0 := by
  have hsub := submitJobs_stops_at_missing images bad post hbad pre 1 hpre
  refine ⟨?_, ?_, rfl, ?_, ?_⟩ <;> simp [download_results, hsub.1, hsub.2]

/-- Witness for C10: the second of three records lacks the `href` key. -/
theorem c10_witness :
    (download_results false "k".toList "t".toList ([recA] ++ recBad :: [recB]) none failAll
        okAll).keyError = true ∧
    (download_results false "k".toList "t".toList ([recA] ++ recBad :: [recB]) none failAll
        okAll).raised = true ∧
    (download_results false "k".toList "t".toList ([recA] ++ recBad :: [recB]) none failAll
        okAll).dirCreated = true ∧
    (download_results false "k".toList "t".toList ([recA] ++ recBad :: [recB]) none failAll
        okAll).submitted.map Job.ordinal = List.range' 1 1 ∧
    (download_results false "k".toList "t".toList ([recA] ++ recBad :: [recB]) none failAll
        okAll).ticks = 0 :=
  c10_keyerror_propagates false "k".toList "t".toList [recA] [recB] recBad none failAll okAll
    (by decide) (by decide)
